import Mathlib

/-!
Verification development for the temporary video-access token subsystem of
the doraemon-theme repository (src/src/index.tsx, lines 1780-2023).

JavaScript strings are modelled as Lean String / List Char, JavaScript
numbers restricted to the integer values occurring here as Int, NaN as the
none case of Option Int, and thrown-and-caught exceptions as the none case
of Option results.  Every awaited external effect of the two route handlers
(database lookup, upstream fetches, the analytics insert) is passed in as an
explicit outcome parameter, with none standing for a throw.
-/

/-! ## Base64: the standard alphabet used by btoa and atob -/

/-- Code point of entry n of the standard base64 alphabet A-Z a-z 0-9 + / . -/
def b64CharCode (n : Nat) : Nat :=
  if n < 26 then 65 + n
  else if n < 52 then 97 + (n - 26)
  else if n < 62 then 48 + (n - 52)
  else if n = 62 then 43
  else 47

/-- Character of a 6-bit group under the standard base64 alphabet. -/
def sextetToChar (n : Nat) : Char := Char.ofNat (b64CharCode n)

/-- Inverse alphabet lookup; none for characters outside the alphabet. -/
def charToSextet (c : Char) : Option Nat :=
  if 65 ≤ c.toNat ∧ c.toNat ≤ 90 then some (c.toNat - 65)
  else if 97 ≤ c.toNat ∧ c.toNat ≤ 122 then some (c.toNat - 97 + 26)
  else if 48 ≤ c.toNat ∧ c.toNat ≤ 57 then some (c.toNat - 48 + 52)
  else if c.toNat = 43 then some 62
  else if c.toNat = 47 then some 63
  else none

/-- Base64 body of a byte list: 6-bit groups of the 3-byte blocks, final
partial block included, padding characters excluded. -/
def b64EncCore : List Nat → List Char
  | [] => []
  | [x] => [sextetToChar (x / 4), sextetToChar (x % 4 * 16)]
  | [x, y] =>
    [sextetToChar (x / 4), sextetToChar (x % 4 * 16 + y / 16), sextetToChar (y % 16 * 4)]
  | x :: y :: z :: rest =>
    sextetToChar (x / 4) :: sextetToChar (x % 4 * 16 + y / 16) ::
      sextetToChar (y % 16 * 4 + z / 64) :: sextetToChar (z % 64) :: b64EncCore rest

/-- Number of = padding characters base64 appends to n input bytes. -/
def b64PadLen (n : Nat) : Nat := (3 - n % 3) % 3

/-- Base64 encoding of a byte list, exactly what btoa produces on a latin1
string with these byte values (RFC 4648, with = padding). -/
def jsBtoaBytes (bs : List Nat) : List Char :=
  b64EncCore bs ++ List.replicate (b64PadLen bs.length) '='

/-- ASCII whitespace removed by the forgiving-base64 decode behind atob. -/
def isB64Ws (c : Char) : Bool :=
  c.toNat == 9 || c.toNat == 10 || c.toNat == 12 || c.toNat == 13 || c.toNat == 32

/-- Removal of at most two trailing = characters, as in forgiving-base64. -/
def stripPad (l : List Char) : List Char :=
  match l.reverse with
  | c1 :: c2 :: rest =>
    if c1 = '=' then (if c2 = '=' then rest.reverse else (c2 :: rest).reverse) else l
  | [c1] => if c1 = '=' then [] else l
  | [] => l

/-- Alphabet lookup of every character; none if any character is invalid. -/
def charsToSextets : List Char → Option (List Nat)
  | [] => some []
  | c :: cs =>
    match charToSextet c, charsToSextets cs with
    | some s, some ss => some (s :: ss)
    | _, _ => none

/-- Byte reassembly from 6-bit groups; leftover bits of a trailing group of
two or three characters are discarded, as forgiving-base64 does. -/
def bytesOfSextets : List Nat → List Nat
  | a :: b :: c :: d :: rest =>
    (a * 4 + b / 16) :: ((b % 16) * 16 + c / 4) :: ((c % 4) * 64 + d) :: bytesOfSextets rest
  | [a, b] => [a * 4 + b / 16]
  | [a, b, c] => [a * 4 + b / 16, (b % 16) * 16 + c / 4]
  | [_] => []
  | [] => []

/-- The atob builtin: forgiving-base64 decode of a character list, returning
the decoded bytes as characters; none models the InvalidCharacterError it
throws on a remainder-1 length or a character outside the alphabet. -/
def jsAtob (s : List Char) : Option (List Char) :=
  let d0 := s.filter (fun c => !isB64Ws c)
  let d := if d0.length % 4 = 0 then stripPad d0 else d0
  if d.length % 4 = 1 then none
  else
    match charsToSextets d with
    | none => none
    | some sx => some ((bytesOfSextets sx).map Char.ofNat)

/-! ## JavaScript number printing and parseInt -/

/-- Decimal digit character. -/
def digitChar (n : Nat) : Char := Char.ofNat (48 + n)

/-- Fuel-driven most-significant-first decimal digit accumulation. -/
def natDigitsAux : Nat → Nat → List Char → List Char
  | 0, _, acc => acc
  | fuel + 1, n, acc =>
    if n < 10 then digitChar n :: acc
    else natDigitsAux fuel (n / 10) (digitChar (n % 10) :: acc)

/-- Decimal digits of a natural number, most significant first. -/
def natToDigits (n : Nat) : List Char := natDigitsAux (n + 1) n []

/-- Decimal rendering of an integer-valued JavaScript number, as produced by
the template-literal string conversion in generateTempToken. -/
def jsIntToString (i : Int) : List Char :=
  if i < 0 then '-' :: natToDigits i.natAbs else natToDigits i.toNat

/-- Value of a decimal digit string. -/
def natFromDigits (ds : List Char) : Nat :=
  ds.foldl (fun a c => a * 10 + (c.toNat - 48)) 0

/-- Value of one hexadecimal digit character. -/
def hexDigitVal (c : Char) : Nat :=
  if 48 ≤ c.toNat ∧ c.toNat ≤ 57 then c.toNat - 48
  else if 97 ≤ c.toNat ∧ c.toNat ≤ 102 then c.toNat - 87
  else c.toNat - 55

/-- Value of a hexadecimal digit string. -/
def hexFromDigits (ds : List Char) : Nat :=
  ds.foldl (fun a c => a * 16 + hexDigitVal c) 0

/-- Decimal digit test. -/
def isDigitCh (c : Char) : Bool := decide (48 ≤ c.toNat ∧ c.toNat ≤ 57)

/-- Hexadecimal digit test. -/
def isHexDigitCh (c : Char) : Bool :=
  decide ((48 ≤ c.toNat ∧ c.toNat ≤ 57) ∨ (97 ≤ c.toNat ∧ c.toNat ≤ 102) ∨
    (65 ≤ c.toNat ∧ c.toNat ≤ 70))

/-- White space skipped by parseInt (ASCII white space, NBSP, BOM). -/
def isJsStrWs (c : Char) : Bool :=
  c.toNat == 9 || c.toNat == 10 || c.toNat == 11 || c.toNat == 12 ||
    c.toNat == 13 || c.toNat == 32 || c.toNat == 160 || c.toNat == 65279

/-- The parseInt builtin applied to a string with no explicit radix: skip
leading white space, read an optional sign, switch to radix 16 after a 0x or
0X prefix, take the longest digit prefix; none models NaN. -/
def jsParseIntStr (s : List Char) : Option Int :=
  let t := s.dropWhile isJsStrWs
  let neg : Bool := decide (t.head? = some '-')
  let hasSign : Bool := neg || decide (t.head? = some '+')
  let t1 := if hasSign then t.tail else t
  let radix16 : Bool := decide (t1.head? = some '0') &&
    (decide (t1.tail.head? = some 'x') || decide (t1.tail.head? = some 'X'))
  let t2 := if radix16 then t1.tail.tail else t1
  let ds := if radix16 then t2.takeWhile isHexDigitCh else t2.takeWhile isDigitCh
  if ds.isEmpty then none
  else
    let v : Nat := if radix16 then hexFromDigits ds else natFromDigits ds
    some (if neg then -(v : Int) else (v : Int))

/-- The parseInt call in verifyTempToken: its argument is an element of a
destructuring, so it may be the undefined value (none), which parseInt turns
into the string of letters undefined and hence NaN. -/
def jsParseInt (s : Option (List Char)) : Option Int :=
  match s with
  | none => none
  | some cs => jsParseIntStr cs

/-! ## String split on a separator character, as String.prototype.split -/

/-- Split on a one-character separator, JavaScript semantics: the empty
string yields one empty field, a separator at either end yields an empty
field there. -/
def splitCh (sep : Char) : List Char → List (List Char)
  | [] => [[]]
  | c :: rest =>
    if c = sep then [] :: splitCh sep rest
    else
      match splitCh sep rest with
      | [] => [[c]]
      | g :: gs => (c :: g) :: gs

/-! ## Token codec (index.tsx lines 1989-2023) -/

/-- Replacement performed by the regex replace of generateTempToken:
plus to dash, slash to underscore, = removed, all else kept. -/
def urlSafeReplace (c : Char) : List Char :=
  if c = '+' then ['-'] else if c = '/' then ['_'] else if c = '=' then [] else [c]

/-- Character-wise application of the generateTempToken replace. -/
def urlSafeMap : List Char → List Char
  | [] => []
  | c :: cs => urlSafeReplace c ++ urlSafeMap cs

/-- One-character image of the replace on characters it does not delete. -/
def urlSafeChar (c : Char) : Char :=
  if c = '+' then '-' else if c = '/' then '_' else c

/-- First replace of verifyTempToken: dash back to plus. -/
def dashToPlus (c : Char) : Char := if c = '-' then '+' else c

/-- Second replace of verifyTempToken: underscore back to slash. -/
def underscoreToSlash (c : Char) : Char := if c = '_' then '/' else c

/-- generateTempToken (index.tsx 1989-1995): colon-join the three fields,
btoa, then the URL-safe replace; none models the InvalidCharacterError btoa
throws when the joined string has a character above code point 255. -/
def generateTempToken (fileId userIP : String) (expiresAt : Int) : Option String :=
  let data := fileId.data ++ ':' :: (userIP.data ++ ':' :: jsIntToString expiresAt)
  if data.all (fun c => c.toNat < 256) then
    some (String.mk (urlSafeMap (jsBtoaBytes (data.map Char.toNat))))
  else none

/-- Base64 input rebuilt by verifyTempToken (index.tsx 2000-2001): reverse
the two character replacements and re-add = padding to a multiple of four. -/
def tokenBase64Input (token : List Char) : List Char :=
  (token.map dashToPlus).map underscoreToSlash ++
    List.replicate ((4 - token.length % 4) % 4) '='

/-- Result object of verifyTempToken; file_id comes from a destructuring, so
it is possibly undefined, and expires_at from parseInt, so possibly NaN. -/
structure TokenData where
  file_id : Option String
  expires_at : Option Int
  deriving DecidableEq, Repr

/-- Comparison now greater-than expires of verifyTempToken: a comparison
against NaN is false. -/
def jsGtNaN (a : Int) (b : Option Int) : Bool :=
  match b with
  | none => false
  | some v => decide (a > v)

/-- verifyTempToken (index.tsx 1997-2023): rebuild the base64 string, atob,
split on colon, destructure the first three fields, parseInt the third,
reject when now exceeds it, return the file id and expiry.  The embedded-IP
comparison is commented out in the source, so userIP is never consulted; the
catch clause mapping any throw (in particular from atob) to null is the none
propagation. -/
def verifyTempToken (token userIP : String) (now : Int) : Option TokenData :=
  match jsAtob (tokenBase64Input token.data) with
  | none => none
  | some data =>
    let parts := splitCh ':' data
    let fileId := (parts[0]?).map String.mk
    let _tokenIP := (parts[1]?).map String.mk
    let expires := jsParseInt (parts[2]?)
    if jsGtNaN now expires then none
    else some { file_id := fileId, expires_at := expires }

/-! ## Route handlers (index.tsx 1780-1885) -/

/-- Worker environment slice the two handlers read. -/
structure TgEnv where
  botToken : Option String
  deriving DecidableEq, Repr

/-- Row of the published-movie lookup; only its id is consumed afterwards. -/
structure MovieRow where
  id : Int
  deriving DecidableEq, Repr

/-- Parsed JSON of a getFile call against the bot API. -/
structure GetFileResult where
  ok : Bool
  file_path : String
  file_size : Int
  deriving DecidableEq, Repr

/-- Response of the get-file-url handler, with the Date of the expiry kept
as its epoch-millisecond value (the source renders it with toISOString). -/
inductive GetUrlResponse where
  | success (video_url direct_url : String) (expires_at_ms : Int) (file_size : Int)
  | failure (status : Nat) (error : String)
  deriving DecidableEq, Repr

/-- Handler of POST /api/telegram/get-file-url (index.tsx 1780-1831).
dbMovie is the outcome of the published-movie lookup (outer none: the query
threw; inner none: no row), fileFetch the outcome of the getFile call (none:
fetch or json threw), analyticsOk false when the analytics insert throws.
Every throw lands in the catch clause, which yields the 500 response. -/
def getFileUrlHandler (file_id movie_slug userIP : String) (env : TgEnv)
    (dbMovie : Option (Option MovieRow)) (fileFetch : Option GetFileResult)
    (analyticsOk : Bool) (now : Int) : GetUrlResponse :=
  match env.botToken with
  | none => .failure 500 "Telegram bot not configured"
  | some botToken =>
    if botToken = "" then .failure 500 "Telegram bot not configured"
    else
      match dbMovie with
      | none => .failure 500 "Failed to get video URL"
      | some none => .failure 404 "Movie not found"
      | some (some _movie) =>
        match fileFetch with
        | none => .failure 500 "Failed to get video URL"
        | some fileData =>
          if !fileData.ok then .failure 400 "Invalid file ID"
          else
            let filePath := fileData.file_path
            let directUrl := "https://api.telegram.org/file/bot" ++ botToken ++ "/" ++ filePath
            let expiresAt := now + 3600000
            match generateTempToken file_id userIP expiresAt with
            | none => .failure 500 "Failed to get video URL"
            | some tempToken =>
              if !analyticsOk then .failure 500 "Failed to get video URL"
              else
                .success ("/api/telegram/stream/" ++ tempToken) directUrl expiresAt
                  fileData.file_size

/-- Upstream response of the relay fetch in the stream handler. -/
structure UpstreamVideo where
  ok : Bool
  status : Nat
  contentType : Option String
  contentLength : Option String
  deriving DecidableEq, Repr

/-- Externally visible side effects of the stream handler. -/
inductive StreamEffect where
  | fetchGetFile (url : String)
  | fetchVideo (url : String)
  deriving DecidableEq, Repr

/-- Response of the stream handler: a json error or the relayed stream with
its status and the headers set on it, in order. -/
inductive StreamResult where
  | json (status : Nat) (error : String)
  | stream (status : Nat) (headers : List (String × String))
  deriving DecidableEq, Repr

/-- Default taken through the JavaScript logical-or, whose left side loses
when it is null or the empty string. -/
def jsOrStr (v : Option String) (dflt : String) : String :=
  match v with
  | none => dflt
  | some s => if s = "" then dflt else s

/-- Handler of GET /api/telegram/stream/:token (index.tsx 1834-1885),
returning its response together with the trace of upstream fetches it
performed.  fileFetch is the outcome of the getFile call and videoFetch the
outcome of the relay fetch, each none when that fetch throws; the catch
clause yields the 500 response. -/
def streamHandler (token userIP : String) (env : TgEnv) (now : Int)
    (fileFetch : Option GetFileResult) (videoFetch : Option UpstreamVideo) :
    StreamResult × List StreamEffect :=
  match verifyTempToken token userIP now with
  | none => (.json 401 "Invalid or expired token", [])
  | some tokenData =>
    match env.botToken with
    | none => (.json 503 "Service unavailable", [])
    | some botToken =>
      if botToken = "" then (.json 503 "Service unavailable", [])
      else
        let fidStr :=
          match tokenData.file_id with
          | none => "undefined"
          | some s => s
        let getFileUrl := "https://api.telegram.org/bot" ++ botToken ++
          "/getFile?file_id=" ++ fidStr
        let trace1 := [StreamEffect.fetchGetFile getFileUrl]
        match fileFetch with
        | none => (.json 500 "Stream error", trace1)
        | some fileData =>
          if !fileData.ok then (.json 404 "Video no longer available", trace1)
          else
            let videoUrl := "https://api.telegram.org/file/bot" ++ botToken ++ "/" ++
              fileData.file_path
            let trace2 := trace1 ++ [StreamEffect.fetchVideo videoUrl]
            match videoFetch with
            | none => (.json 500 "Stream error", trace2)
            | some videoResponse =>
              if !videoResponse.ok then (.json 404 "Video stream unavailable", trace2)
              else
                (.stream videoResponse.status
                  [("Content-Type", jsOrStr videoResponse.contentType "video/mp4"),
                   ("Content-Length", jsOrStr videoResponse.contentLength "0"),
                   ("Accept-Ranges", "bytes"),
                   ("Cache-Control", "no-cache, no-store, must-revalidate"),
                   ("X-Content-Type-Options", "nosniff")], trace2)

example : verifyTempToken "YWJj" "someip" 0 = some ⟨some "abc", none⟩ := by decide

example :
    verifyTempToken ((generateTempToken "A" "1.2.3.4" 99).getD "") "x" 50 =
      some ⟨some "A", some 99⟩ := by decide

example : generateTempToken "A" "1.2.3.4" 99 = some "QToxLjIuMy40Ojk5" := by decide

example : jsParseIntStr "123".data = some 123 := by decide
example : jsParseIntStr "-45".data = some (-45) := by decide
example : jsParseIntStr "0x1A".data = some 26 := by decide
example : jsParseIntStr "-0x10".data = some (-16) := by decide
example : jsParseIntStr "12abc".data = some 12 := by decide
example : jsParseIntStr "abc".data = none := by decide
example : jsParseIntStr " 7".data = some 7 := by decide
example : jsParseIntStr "".data = none := by decide

/-- Mirror of b64EncCore at the level of 6-bit values. -/
def b64Sextets : List Nat → List Nat
  | [] => []
  | [x] => [x / 4, x % 4 * 16]
  | [x, y] => [x / 4, x % 4 * 16 + y / 16, y % 16 * 4]
  | x :: y :: z :: rest =>
    x / 4 :: (x % 4 * 16 + y / 16) :: (y % 16 * 4 + z / 64) :: z % 64 :: b64Sextets rest

/-- Structural decimal printer used only in proofs about natDigitsAux. -/
def natDigitsClean (n : Nat) : List Char :=
  if n < 10 then [digitChar n] else natDigitsClean (n / 10) ++ [digitChar (n % 10)]
decreasing_by omega

/-! ## Alphabet facts, by decision over the 64 alphabet entries -/

theorem charToSextet_sextetToChar {s : Nat} (h : s < 64) :
    charToSextet (sextetToChar s) = some s := by
  have key : ∀ t : Fin 64, charToSextet (sextetToChar t.val) = some t.val := by decide
  exact key ⟨s, h⟩

theorem sextetToChar_ne_pad {s : Nat} (h : s < 64) : sextetToChar s ≠ '=' := by
  have key : ∀ t : Fin 64, sextetToChar t.val ≠ '=' := by decide
  exact key ⟨s, h⟩

theorem isB64Ws_sextetToChar {s : Nat} (h : s < 64) :
    isB64Ws (sextetToChar s) = false := by
  have key : ∀ t : Fin 64, isB64Ws (sextetToChar t.val) = false := by decide
  exact key ⟨s, h⟩

theorem urlSafeReplace_alpha {s : Nat} (h : s < 64) :
    urlSafeReplace (sextetToChar s) = [urlSafeChar (sextetToChar s)] := by
  have key : ∀ t : Fin 64,
      urlSafeReplace (sextetToChar t.val) = [urlSafeChar (sextetToChar t.val)] := by decide
  exact key ⟨s, h⟩

theorem back_of_urlSafe {s : Nat} (h : s < 64) :
    underscoreToSlash (dashToPlus (urlSafeChar (sextetToChar s))) = sextetToChar s := by
  have key : ∀ t : Fin 64,
      underscoreToSlash (dashToPlus (urlSafeChar (sextetToChar t.val))) =
        sextetToChar t.val := by decide
  exact key ⟨s, h⟩

theorem urlSafeChar_not_special {s : Nat} (h : s < 64) :
    urlSafeChar (sextetToChar s) ≠ '+' ∧ urlSafeChar (sextetToChar s) ≠ '/' ∧
      urlSafeChar (sextetToChar s) ≠ '=' := by
  have key : ∀ t : Fin 64, urlSafeChar (sextetToChar t.val) ≠ '+' ∧
      urlSafeChar (sextetToChar t.val) ≠ '/' ∧
      urlSafeChar (sextetToChar t.val) ≠ '=' := by decide
  exact key ⟨s, h⟩

/-! ## Structure of the base64 body -/

theorem b64EncCore_mem {bs : List Nat} (hb : ∀ b ∈ bs, b < 256) :
    ∀ c ∈ b64EncCore bs, ∃ s, s < 64 ∧ c = sextetToChar s := by
  induction bs using b64EncCore.induct with
  | case1 => intro c hc; simp [b64EncCore] at hc
  | case2 x =>
    intro c hc
    have hx : x < 256 := hb x (by simp)
    simp only [b64EncCore, List.mem_cons, List.mem_singleton, List.not_mem_nil, or_false] at hc
    rcases hc with rfl | rfl
    · exact ⟨x / 4, by omega, rfl⟩
    · exact ⟨x % 4 * 16, by omega, rfl⟩
  | case3 x y =>
    intro c hc
    have hx : x < 256 := hb x (by simp)
    have hy : y < 256 := hb y (by simp)
    simp only [b64EncCore, List.mem_cons, List.not_mem_nil, or_false] at hc
    rcases hc with rfl | rfl | rfl
    · exact ⟨x / 4, by omega, rfl⟩
    · exact ⟨x % 4 * 16 + y / 16, by omega, rfl⟩
    · exact ⟨y % 16 * 4, by omega, rfl⟩
  | case4 x y z rest ih =>
    intro c hc
    have hx : x < 256 := hb x (by simp)
    have hy : y < 256 := hb y (by simp)
    have hz : z < 256 := hb z (by simp)
    simp only [b64EncCore, List.mem_cons] at hc
    rcases hc with rfl | rfl | rfl | rfl | hc
    · exact ⟨x / 4, by omega, rfl⟩
    · exact ⟨x % 4 * 16 + y / 16, by omega, rfl⟩
    · exact ⟨y % 16 * 4 + z / 64, by omega, rfl⟩
    · exact ⟨z % 64, by omega, rfl⟩
    · exact ih (fun b hbm => hb b (by simp [hbm])) c hc

theorem b64EncCore_length (bs : List Nat) :
    (b64EncCore bs).length = (4 * bs.length + 2) / 3 := by
  induction bs using b64EncCore.induct with
  | case1 => simp [b64EncCore]
  | case2 x => simp [b64EncCore]
  | case3 x y => simp [b64EncCore]
  | case4 x y z rest ih =>
    simp only [b64EncCore, List.length_cons, ih]
    omega

theorem charsToSextets_core {bs : List Nat} (hb : ∀ b ∈ bs, b < 256) :
    charsToSextets (b64EncCore bs) = some (b64Sextets bs) := by
  induction bs using b64EncCore.induct with
  | case1 => rfl
  | case2 x =>
    have hx : x < 256 := hb x (by simp)
    simp [b64EncCore, b64Sextets, charsToSextets,
      charToSextet_sextetToChar (show x / 4 < 64 by omega),
      charToSextet_sextetToChar (show x % 4 * 16 < 64 by omega)]
  | case3 x y =>
    have hx : x < 256 := hb x (by simp)
    have hy : y < 256 := hb y (by simp)
    simp [b64EncCore, b64Sextets, charsToSextets,
      charToSextet_sextetToChar (show x / 4 < 64 by omega),
      charToSextet_sextetToChar (show x % 4 * 16 + y / 16 < 64 by omega),
      charToSextet_sextetToChar (show y % 16 * 4 < 64 by omega)]
  | case4 x y z rest ih =>
    have hx : x < 256 := hb x (by simp)
    have hy : y < 256 := hb y (by simp)
    have hz : z < 256 := hb z (by simp)
    have ih2 := ih (fun b hbm => hb b (by simp [hbm]))
    simp [b64EncCore, b64Sextets, charsToSextets, ih2,
      charToSextet_sextetToChar (show x / 4 < 64 by omega),
      charToSextet_sextetToChar (show x % 4 * 16 + y / 16 < 64 by omega),
      charToSextet_sextetToChar (show y % 16 * 4 + z / 64 < 64 by omega),
      charToSextet_sextetToChar (show z % 64 < 64 by omega)]

theorem bytesOfSextets_b64Sextets {bs : List Nat} (hb : ∀ b ∈ bs, b < 256) :
    bytesOfSextets (b64Sextets bs) = bs := by
  induction bs using b64Sextets.induct with
  | case1 => rfl
  | case2 x =>
    simp only [b64Sextets, bytesOfSextets]
    have hx : x < 256 := hb x (by simp)
    congr 1
    omega
  | case3 x y =>
    have hx : x < 256 := hb x (by simp)
    have hy : y < 256 := hb y (by simp)
    simp only [b64Sextets, bytesOfSextets]
    congr 1
    · omega
    · congr 1; omega
  | case4 x y z rest ih =>
    have hx : x < 256 := hb x (by simp)
    have hy : y < 256 := hb y (by simp)
    have hz : z < 256 := hb z (by simp)
    have ih2 := ih (fun b hbm => hb b (by simp [hbm]))
    simp only [b64Sextets, bytesOfSextets, ih2]
    congr 1
    · omega
    · congr 1
      · omega
      · congr 1; omega

/-! ## The URL-safe replace and its inverse -/

theorem urlSafeMap_append (l1 l2 : List Char) :
    urlSafeMap (l1 ++ l2) = urlSafeMap l1 ++ urlSafeMap l2 := by
  induction l1 with
  | nil => rfl
  | cons c cs ih => simp [urlSafeMap, ih]

theorem urlSafeMap_alpha {l : List Char}
    (h : ∀ c ∈ l, ∃ s, s < 64 ∧ c = sextetToChar s) :
    urlSafeMap l = l.map urlSafeChar := by
  induction l with
  | nil => rfl
  | cons c cs ih =>
    obtain ⟨s, hs, hc⟩ := h c (List.mem_cons_self c cs)
    subst hc
    simp [urlSafeMap, urlSafeReplace_alpha hs, ih (fun c hc => h c (by simp [hc]))]

theorem urlSafeMap_pad (k : Nat) : urlSafeMap (List.replicate k '=') = [] := by
  induction k with
  | zero => rfl
  | succ n ih => simpa [List.replicate_succ, urlSafeMap, urlSafeReplace] using ih

theorem backmap_alpha {l : List Char}
    (h : ∀ c ∈ l, ∃ s, s < 64 ∧ c = sextetToChar s) :
    ((l.map urlSafeChar).map dashToPlus).map underscoreToSlash = l := by
  induction l with
  | nil => rfl
  | cons c cs ih =>
    obtain ⟨s, hs, hc⟩ := h c (List.mem_cons_self c cs)
    subst hc
    simp only [List.map_cons]
    rw [back_of_urlSafe hs, ih (fun c hc => h c (by simp [hc]))]

/-! ## stripPad on a padded base64 body -/

theorem stripPad_of_ne_pad {l : List Char} (hl : ∀ c ∈ l, c ≠ '=') :
    stripPad l = l := by
  unfold stripPad
  rcases hrev : l.reverse with _ | ⟨c1, tl⟩
  · rfl
  · have hc1 : c1 ∈ l := by
      have : c1 ∈ l.reverse := by rw [hrev]; simp
      simpa using this
    rcases tl with _ | ⟨c2, tl2⟩
    · simp [hl c1 hc1]
    · simp [hl c1 hc1]

theorem stripPad_padded {l : List Char} (k : Nat) (hk : k ≤ 2)
    (hl : ∀ c ∈ l, c ≠ '=') :
    stripPad (l ++ List.replicate k '=') = l := by
  interval_cases k
  · simpa using stripPad_of_ne_pad hl
  · unfold stripPad
    have hrv : (l ++ List.replicate 1 '=').reverse = '=' :: l.reverse := by simp
    rw [hrv]
    rcases hrev : l.reverse with _ | ⟨c1, tl⟩
    · have hl0 : l = [] := by simpa using congrArg List.reverse hrev
      subst hl0
      rfl
    · have hc1 : c1 ∈ l := by
        have hx : c1 ∈ l.reverse := by rw [hrev]; exact List.mem_cons_self _ _
        simpa using hx
      have hrecover : (c1 :: tl).reverse = l := by
        have := congrArg List.reverse hrev
        simpa using this.symm
      simp [hl c1 hc1, hrecover]
  · unfold stripPad
    have hrv : (l ++ List.replicate 2 '=').reverse = '=' :: '=' :: l.reverse := by simp
    rw [hrv]
    simp

/-! ## atob of a btoa output recovers the bytes -/

theorem jsAtob_jsBtoaBytes {bs : List Nat} (hb : ∀ b ∈ bs, b < 256) :
    jsAtob (jsBtoaBytes bs) = some (bs.map Char.ofNat) := by
  have hmem := b64EncCore_mem hb
  have hlen := b64EncCore_length bs
  have hfilter :
      (jsBtoaBytes bs).filter (fun c => !isB64Ws c) = jsBtoaBytes bs := by
    rw [List.filter_eq_self]
    intro c hc
    rcases List.mem_append.mp hc with hc | hc
    · obtain ⟨s, hs, rfl⟩ := hmem c hc
      simp [isB64Ws_sextetToChar hs]
    · have : c = '=' := List.eq_of_mem_replicate hc
      subst this
      decide
  have hlen4 : (jsBtoaBytes bs).length % 4 = 0 := by
    have : (jsBtoaBytes bs).length =
        (b64EncCore bs).length + b64PadLen bs.length := by
      simp [jsBtoaBytes]
    rw [this, hlen]
    unfold b64PadLen
    have h3 : bs.length % 3 = 0 ∨ bs.length % 3 = 1 ∨ bs.length % 3 = 2 := by omega
    rcases h3 with h3 | h3 | h3 <;> omega
  have hcnezero : ∀ c ∈ b64EncCore bs, c ≠ '=' := by
    intro c hc
    obtain ⟨s, hs, rfl⟩ := hmem c hc
    exact sextetToChar_ne_pad hs
  have hpadle : b64PadLen bs.length ≤ 2 := by unfold b64PadLen; omega
  have hstrip : stripPad (jsBtoaBytes bs) = b64EncCore bs :=
    stripPad_padded _ hpadle hcnezero
  have hcore4 : ¬((b64EncCore bs).length % 4 = 1) := by
    rw [hlen]; omega
  unfold jsAtob
  simp only [hfilter]
  rw [if_pos hlen4, hstrip, if_neg hcore4, charsToSextets_core hb]
  simp [bytesOfSextets_b64Sextets hb]

/-! ## splitCh on colon-free segments -/

theorem splitCh_no_sep {sep : Char} {l : List Char} (h : sep ∉ l) :
    splitCh sep l = [l] := by
  induction l with
  | nil => rfl
  | cons c cs ih =>
    have hc : ¬(c = sep) := by rintro rfl; exact h (List.mem_cons_self _ _)
    have hcs : sep ∉ cs := fun hm => h (List.mem_cons_of_mem _ hm)
    simp [splitCh, hc, ih hcs]

theorem splitCh_append {sep : Char} {a : List Char} (rest : List Char) (h : sep ∉ a) :
    splitCh sep (a ++ sep :: rest) = a :: splitCh sep rest := by
  induction a with
  | nil => simp [splitCh]
  | cons c cs ih =>
    have hc : ¬(c = sep) := by rintro rfl; exact h (List.mem_cons_self _ _)
    have hcs : sep ∉ cs := fun hm => h (List.mem_cons_of_mem _ hm)
    simp only [List.cons_append, splitCh, if_neg hc]
    rw [show cs.append (sep :: rest) = cs ++ sep :: rest from rfl, ih hcs]

/-! ## Digit characters, by decision over the ten digits -/

theorem digitChar_toNat {d : Nat} (h : d < 10) : (digitChar d).toNat = 48 + d := by
  have key : ∀ t : Fin 10, (digitChar t.val).toNat = 48 + t.val := by decide
  exact key ⟨d, h⟩

theorem digitChar_not_ws {d : Nat} (h : d < 10) : isJsStrWs (digitChar d) = false := by
  have key : ∀ t : Fin 10, isJsStrWs (digitChar t.val) = false := by decide
  exact key ⟨d, h⟩

theorem digitChar_isDigit {d : Nat} (h : d < 10) : isDigitCh (digitChar d) = true := by
  have key : ∀ t : Fin 10, isDigitCh (digitChar t.val) = true := by decide
  exact key ⟨d, h⟩

theorem digitChar_ne_minus {d : Nat} (h : d < 10) : digitChar d ≠ '-' := by
  have key : ∀ t : Fin 10, digitChar t.val ≠ '-' := by decide
  exact key ⟨d, h⟩

theorem digitChar_ne_plus {d : Nat} (h : d < 10) : digitChar d ≠ '+' := by
  have key : ∀ t : Fin 10, digitChar t.val ≠ '+' := by decide
  exact key ⟨d, h⟩

theorem digitChar_ne_lcx {d : Nat} (h : d < 10) : digitChar d ≠ 'x' := by
  have key : ∀ t : Fin 10, digitChar t.val ≠ 'x' := by decide
  exact key ⟨d, h⟩

theorem digitChar_ne_ucx {d : Nat} (h : d < 10) : digitChar d ≠ 'X' := by
  have key : ∀ t : Fin 10, digitChar t.val ≠ 'X' := by decide
  exact key ⟨d, h⟩

theorem digitChar_ne_colon {d : Nat} (h : d < 10) : digitChar d ≠ ':' := by
  have key : ∀ t : Fin 10, digitChar t.val ≠ ':' := by decide
  exact key ⟨d, h⟩

theorem digitChar_lt256 {d : Nat} (h : d < 10) : (digitChar d).toNat < 256 := by
  have key : ∀ t : Fin 10, (digitChar t.val).toNat < 256 := by decide
  exact key ⟨d, h⟩

/-! ## takeWhile and dropWhile on uniform lists -/

theorem takeWhile_of_all {p : Char → Bool} {l : List Char}
    (h : ∀ a ∈ l, p a = true) : l.takeWhile p = l := by
  induction l with
  | nil => rfl
  | cons c cs ih =>
    simp [List.takeWhile_cons, h c (List.mem_cons_self _ _),
      ih (fun a ha => h a (List.mem_cons_of_mem _ ha))]

/-! ## The decimal printer and its value -/

theorem natDigitsAux_eq_clean :
    ∀ (fuel n : Nat) (acc : List Char), n < fuel →
      natDigitsAux fuel n acc = natDigitsClean n ++ acc := by
  intro fuel
  induction fuel with
  | zero => intro n acc h; omega
  | succ f ih =>
    intro n acc h
    by_cases h10 : n < 10
    · simp only [natDigitsAux, if_pos h10]
      conv_rhs => rw [natDigitsClean]
      simp [h10]
    · simp only [natDigitsAux, if_neg h10]
      rw [ih (n / 10) (digitChar (n % 10) :: acc) (by omega)]
      conv_rhs => rw [natDigitsClean]
      simp [h10]

theorem natToDigits_eq_clean (n : Nat) : natToDigits n = natDigitsClean n := by
  have h := natDigitsAux_eq_clean (n + 1) n [] (by omega)
  simpa [natToDigits] using h

theorem natDigitsClean_mem :
    ∀ (n : Nat), ∀ c ∈ natDigitsClean n, ∃ d, d < 10 ∧ c = digitChar d := by
  intro n
  induction n using Nat.strong_induction_on with
  | _ n ih =>
    intro c hc
    unfold natDigitsClean at hc
    by_cases h10 : n < 10
    · simp [h10] at hc
      exact ⟨n, h10, hc⟩
    · simp only [if_neg h10, List.mem_append, List.mem_singleton] at hc
      rcases hc with hc | hc
      · exact ih (n / 10) (by omega) c hc
      · exact ⟨n % 10, by omega, hc⟩

theorem natDigitsClean_ne_nil (n : Nat) : natDigitsClean n ≠ [] := by
  unfold natDigitsClean
  by_cases h10 : n < 10 <;> simp [h10]

theorem foldl_digits_init (l : List Char) :
    ∀ i : Nat, l.foldl (fun a c => a * 10 + (c.toNat - 48)) i =
      i * 10 ^ l.length + natFromDigits l := by
  induction l with
  | nil => intro i; simp [natFromDigits]
  | cons c cs ih =>
    intro i
    simp only [List.foldl_cons, natFromDigits] at *
    rw [ih (i * 10 + (c.toNat - 48)), ih (0 * 10 + (c.toNat - 48))]
    simp [List.length_cons, pow_succ]
    ring

theorem natFromDigits_clean (n : Nat) : natFromDigits (natDigitsClean n) = n := by
  induction n using Nat.strong_induction_on with
  | _ n ih =>
    unfold natDigitsClean
    by_cases h10 : n < 10
    · simp only [if_pos h10, natFromDigits, List.foldl_cons, List.foldl_nil]
      rw [digitChar_toNat h10]
      omega
    · simp only [if_neg h10, natFromDigits, List.foldl_append, List.foldl_cons,
        List.foldl_nil]
      have hrec := ih (n / 10) (by omega)
      unfold natFromDigits at hrec
      rw [hrec, digitChar_toNat (show n % 10 < 10 by omega)]
      omega

/-! ## parseInt on canonical decimal strings -/

theorem jsParseIntStr_digits {c : Char} {cs : List Char}
    (h : ∀ a ∈ c :: cs, ∃ d, d < 10 ∧ a = digitChar d) :
    jsParseIntStr (c :: cs) = some ((natFromDigits (c :: cs) : Nat) : Int) := by
  obtain ⟨d, hd10, hcd⟩ := h c (List.mem_cons_self _ _)
  subst hcd
  have hall : ∀ a ∈ digitChar d :: cs, isDigitCh a = true := by
    intro a ha
    obtain ⟨d3, hd3, ha3⟩ := h a ha
    subst ha3
    exact digitChar_isDigit hd3
  have htake := takeWhile_of_all hall
  have hdrop : (digitChar d :: cs).dropWhile isJsStrWs = digitChar d :: cs := by
    simp [List.dropWhile_cons, digitChar_not_ws hd10]
  rcases cs with _ | ⟨c2, cs2⟩
  · simp only [jsParseIntStr]
    rw [hdrop]
    simp [digitChar_ne_minus hd10, digitChar_ne_plus hd10, htake]
  · obtain ⟨d2, hd2, hc2⟩ := h c2 (by simp)
    subst hc2
    simp only [jsParseIntStr]
    rw [hdrop]
    simp [digitChar_ne_minus hd10, digitChar_ne_plus hd10, digitChar_ne_lcx hd2,
      digitChar_ne_ucx hd2, htake]

theorem jsParseIntStr_neg_digits {c : Char} {cs : List Char}
    (h : ∀ a ∈ c :: cs, ∃ d, d < 10 ∧ a = digitChar d) :
    jsParseIntStr ('-' :: c :: cs) = some (-((natFromDigits (c :: cs) : Nat) : Int)) := by
  obtain ⟨d, hd10, hcd⟩ := h c (List.mem_cons_self _ _)
  subst hcd
  have hall : ∀ a ∈ digitChar d :: cs, isDigitCh a = true := by
    intro a ha
    obtain ⟨d3, hd3, ha3⟩ := h a ha
    subst ha3
    exact digitChar_isDigit hd3
  have htake := takeWhile_of_all hall
  have hwsm : isJsStrWs '-' = false := by decide
  have hdrop : ('-' :: digitChar d :: cs).dropWhile isJsStrWs =
      '-' :: digitChar d :: cs := by
    simp [List.dropWhile_cons, hwsm]
  rcases cs with _ | ⟨c2, cs2⟩
  · simp only [jsParseIntStr]
    rw [hdrop]
    simp [digitChar_ne_lcx hd10, digitChar_ne_ucx hd10, htake]
  · obtain ⟨d2, hd2, hc2⟩ := h c2 (by simp)
    subst hc2
    simp only [jsParseIntStr]
    rw [hdrop]
    simp [digitChar_ne_lcx hd2, digitChar_ne_ucx hd2, htake]

theorem jsParseIntStr_jsIntToString (t : Int) :
    jsParseIntStr (jsIntToString t) = some t := by
  unfold jsIntToString
  by_cases ht : t < 0
  · rw [if_pos ht, natToDigits_eq_clean]
    rcases hd : natDigitsClean t.natAbs with _ | ⟨c, cs⟩
    · exact absurd hd (natDigitsClean_ne_nil _)
    · have hmem : ∀ a ∈ c :: cs, ∃ d, d < 10 ∧ a = digitChar d := by
        rw [← hd]; exact natDigitsClean_mem t.natAbs
      rw [jsParseIntStr_neg_digits hmem]
      have hval : natFromDigits (c :: cs) = t.natAbs := by
        rw [← hd]; exact natFromDigits_clean t.natAbs
      rw [hval]
      congr 1
      omega
  · rw [if_neg ht, natToDigits_eq_clean]
    rcases hd : natDigitsClean t.toNat with _ | ⟨c, cs⟩
    · exact absurd hd (natDigitsClean_ne_nil _)
    · have hmem : ∀ a ∈ c :: cs, ∃ d, d < 10 ∧ a = digitChar d := by
        rw [← hd]; exact natDigitsClean_mem t.toNat
      rw [jsParseIntStr_digits hmem]
      have hval : natFromDigits (c :: cs) = t.toNat := by
        rw [← hd]; exact natFromDigits_clean t.toNat
      rw [hval]
      congr 1
      omega

/-! ## Characters of the printed integer -/

theorem jsIntToString_chars (t : Int) :
    ∀ c ∈ jsIntToString t, c.toNat < 256 ∧ c ≠ ':' := by
  intro c hc
  unfold jsIntToString at hc
  by_cases ht : t < 0
  · rw [if_pos ht, natToDigits_eq_clean] at hc
    rcases List.mem_cons.mp hc with hc2 | hc2
    · subst hc2
      exact ⟨by decide, by decide⟩
    · obtain ⟨d, hd10, rfl⟩ := natDigitsClean_mem _ c hc2
      exact ⟨digitChar_lt256 hd10, digitChar_ne_colon hd10⟩
  · rw [if_neg ht, natToDigits_eq_clean] at hc
    obtain ⟨d, hd10, rfl⟩ := natDigitsClean_mem _ c hc
    exact ⟨digitChar_lt256 hd10, digitChar_ne_colon hd10⟩

/-! ## Unfolding verifyTempToken through the decode outcome -/

theorem verifyTempToken_decode_failed {token userIP : String} {now : Int}
    (h : jsAtob (tokenBase64Input token.data) = none) :
    verifyTempToken token userIP now = none := by
  unfold verifyTempToken
  rw [h]

theorem verifyTempToken_decoded {token userIP : String} {now : Int} {data : List Char}
    (h : jsAtob (tokenBase64Input token.data) = some data) :
    verifyTempToken token userIP now =
      (if jsGtNaN now (jsParseInt ((splitCh ':' data)[2]?)) then none
       else some ⟨((splitCh ':' data)[0]?).map String.mk,
         jsParseInt ((splitCh ':' data)[2]?)⟩) := by
  unfold verifyTempToken
  rw [h]

/-! ## The full round trip from generateTempToken through verifyTempToken -/

theorem generate_decodes {fileId userIP : String} {t : Int} {tok : String}
    (hgen : generateTempToken fileId userIP t = some tok) :
    jsAtob (tokenBase64Input tok.data) =
      some (fileId.data ++ ':' :: (userIP.data ++ ':' :: jsIntToString t)) := by
  simp only [generateTempToken] at hgen
  split at hgen
  case isFalse => exact absurd hgen (by simp)
  case isTrue hall =>
    injection hgen with htok
    subst htok
    set data := fileId.data ++ ':' :: (userIP.data ++ ':' :: jsIntToString t) with hdata
    have h256 : ∀ c ∈ data, c.toNat < 256 := by
      intro c hc
      have := List.all_eq_true.mp hall c hc
      simpa using this
    have hbs : ∀ b ∈ data.map Char.toNat, b < 256 := by
      intro b hb
      obtain ⟨c, hc, rfl⟩ := List.mem_map.mp hb
      exact h256 c hc
    have hmem := b64EncCore_mem hbs
    have hcore_map : urlSafeMap (jsBtoaBytes (data.map Char.toNat)) =
        (b64EncCore (data.map Char.toNat)).map urlSafeChar := by
      unfold jsBtoaBytes
      rw [urlSafeMap_append, urlSafeMap_alpha hmem, urlSafeMap_pad, List.append_nil]
    have hback :
        ((((b64EncCore (data.map Char.toNat)).map urlSafeChar).map dashToPlus).map
          underscoreToSlash) = b64EncCore (data.map Char.toNat) := backmap_alpha hmem
    have hlen : ((b64EncCore (data.map Char.toNat)).map urlSafeChar).length =
        (4 * (data.map Char.toNat).length + 2) / 3 := by
      rw [List.length_map, b64EncCore_length]
    have hpadeq :
        (4 - ((b64EncCore (data.map Char.toNat)).map urlSafeChar).length % 4) % 4 =
          b64PadLen (data.map Char.toNat).length := by
      rw [hlen]
      unfold b64PadLen
      have h3 : (data.map Char.toNat).length % 3 = 0 ∨
          (data.map Char.toNat).length % 3 = 1 ∨
          (data.map Char.toNat).length % 3 = 2 := by omega
      rcases h3 with h3 | h3 | h3 <;> omega
    have hinput : tokenBase64Input (urlSafeMap (jsBtoaBytes (data.map Char.toNat))) =
        jsBtoaBytes (data.map Char.toNat) := by
      unfold tokenBase64Input
      rw [hcore_map, hback, hpadeq]
      rfl
    have hdata_rec : (data.map Char.toNat).map Char.ofNat = data := by
      rw [List.map_map]
      have hcongr : ∀ c ∈ data, (Char.ofNat ∘ Char.toNat) c = id c := by
        intro c _
        simp [Function.comp, Char.ofNat_toNat]
      rw [List.map_congr_left hcongr, List.map_id]
    show jsAtob (tokenBase64Input (urlSafeMap (jsBtoaBytes (data.map Char.toNat)))) =
      some data
    rw [hinput, jsAtob_jsBtoaBytes hbs, hdata_rec]

theorem splitCh_joined {fileId userIP : String} {t : Int}
    (hf : ':' ∉ fileId.data) (hip : ':' ∉ userIP.data) :
    splitCh ':' (fileId.data ++ ':' :: (userIP.data ++ ':' :: jsIntToString t)) =
      [fileId.data, userIP.data, jsIntToString t] := by
  have hdig : ':' ∉ jsIntToString t := fun hm => (jsIntToString_chars t _ hm).2 rfl
  rw [splitCh_append _ hf, splitCh_append _ hip, splitCh_no_sep hdig]

theorem verify_generate {fileId userIP ip2 : String} {t now : Int} {tok : String}
    (hgen : generateTempToken fileId userIP t = some tok)
    (hf : ':' ∉ fileId.data) (hip : ':' ∉ userIP.data) :
    verifyTempToken tok ip2 now =
      if now > t then none else some ⟨some fileId, some t⟩ := by
  rw [verifyTempToken_decoded (generate_decodes hgen), splitCh_joined hf hip]
  by_cases hnt : now > t
  · simp [jsParseInt, jsParseIntStr_jsIntToString, jsGtNaN, hnt]
  · simp [jsParseInt, jsParseIntStr_jsIntToString, jsGtNaN, hnt]

example :
    verifyTempToken ((generateTempToken "FILE123" "1.2.3.4" 1700003600000).getD "")
        "9.9.9.9" 1700000000000 =
      some ⟨some "FILE123", some 1700003600000⟩ := by
  have h := @verify_generate "FILE123" "1.2.3.4" "9.9.9.9" 1700003600000 1700000000000
    "RklMRTEyMzoxLjIuMy40OjE3MDAwMDM2MDAwMDA" (by decide) (by decide) (by decide)
  simpa using h

/-! ## Shape of a generated token -/

theorem generateTempToken_shape {fileId userIP : String} {t : Int} {tok : String}
    (hgen : generateTempToken fileId userIP t = some tok) :
    ∃ bs : List Nat, (∀ b ∈ bs, b < 256) ∧
      tok.data = (b64EncCore bs).map urlSafeChar := by
  simp only [generateTempToken] at hgen
  split at hgen
  case isFalse => exact absurd hgen (by simp)
  case isTrue hall =>
    injection hgen with htok
    subst htok
    set data := fileId.data ++ ':' :: (userIP.data ++ ':' :: jsIntToString t) with hdata
    have h256 : ∀ c ∈ data, c.toNat < 256 := by
      intro c hc
      simpa using List.all_eq_true.mp hall c hc
    have hbs : ∀ b ∈ data.map Char.toNat, b < 256 := by
      intro b hb
      obtain ⟨c, hc, rfl⟩ := List.mem_map.mp hb
      exact h256 c hc
    refine ⟨data.map Char.toNat, hbs, ?_⟩
    show urlSafeMap (jsBtoaBytes (data.map Char.toNat)) = _
    unfold jsBtoaBytes
    rw [urlSafeMap_append, urlSafeMap_alpha (b64EncCore_mem hbs), urlSafeMap_pad,
      List.append_nil]

/-! ## Success path of the issuance handler -/

theorem getFileUrlHandler_success_elim {file_id movie_slug userIP bt : String}
    {m : MovieRow} {fd : GetFileResult} {analyticsOk : Bool} {now : Int}
    {vu du : String} {e fs : Int}
    (hres : getFileUrlHandler file_id movie_slug userIP ⟨some bt⟩ (some (some m))
      (some fd) analyticsOk now = .success vu du e fs) :
    ∃ tok : String, generateTempToken file_id userIP (now + 3600000) = some tok ∧
      vu = "/api/telegram/stream/" ++ tok ∧
      du = "https://api.telegram.org/file/bot" ++ bt ++ "/" ++ fd.file_path ∧
      e = now + 3600000 ∧ fs = fd.file_size := by
  simp only [getFileUrlHandler] at hres
  split at hres
  · exact absurd hres (by simp)
  · split at hres
    · exact absurd hres (by simp)
    · split at hres
      · exact absurd hres (by simp)
      · rename_i tempToken hgen
        split at hres
        · exact absurd hres (by simp)
        · obtain ⟨h1, h2, h3, h4⟩ := by simpa using hres
          exact ⟨tempToken, hgen, h1.symm, h2.symm, h3.symm, h4.symm⟩

/-! ## Claims -/

/-- C1 counterexample: the token YWJj decodes to the single-field content
abc, which does not split into three colon-separated fields, yet
verifyTempToken returns a non-null result rather than null. -/
theorem c1_counterexample :
    jsAtob (tokenBase64Input "YWJj".data) = some "abc".data ∧
    (splitCh ':' "abc".data).length = 1 ∧
    verifyTempToken "YWJj" "someip" 1700000000000 = some ⟨some "abc", none⟩ := by
  refine ⟨by decide, by decide, by decide⟩

/-- C1 (amended): when base64 decoding fails, verifyTempToken yields null
and no exception escapes; but a decoded content whose third colon field is
missing or not numeric is not rejected: parseInt yields NaN, the expiry
comparison against NaN is false, and verification returns a non-null result
carrying a NaN expiry. -/
theorem c1_amended_behavior (token userIP : String) (now : Int) :
    (jsAtob (tokenBase64Input token.data) = none →
      verifyTempToken token userIP now = none) ∧
    (∀ data, jsAtob (tokenBase64Input token.data) = some data →
      jsParseInt ((splitCh ':' data)[2]?) = none →
      verifyTempToken token userIP now =
        some ⟨((splitCh ':' data)[0]?).map String.mk, none⟩) := by
  constructor
  · intro h
    exact verifyTempToken_decode_failed h
  · intro data hdec hparse
    rw [verifyTempToken_decoded hdec, hparse]
    simp [jsGtNaN]

/-- C1 witness at the concrete malformed token YWJj. -/
theorem c1_witness :
    verifyTempToken "YWJj" "someip" 42 =
      some ⟨((splitCh ':' "abc".data)[0]?).map String.mk, none⟩ :=
  (c1_amended_behavior "YWJj" "someip" 42).2 "abc".data (by decide) (by decide)

/-- C2: for a valid triple (colon-free latin1 fileId and userIP, integer
expiry), the token decodes back to the colon-joined content, the split
recovers all three fields including the embedded requester identity, the
expiry string parses back to the same integer, and verifyTempToken (at any
time not after the expiry, for any caller identity) returns the same fileId
and the same expiry. -/
theorem c2_roundtrip {fileId userIP ip2 : String} {t now : Int} {tok : String}
    (hgen : generateTempToken fileId userIP t = some tok)
    (hf : ':' ∉ fileId.data) (hip : ':' ∉ userIP.data) (hnow : now ≤ t) :
    jsAtob (tokenBase64Input tok.data) =
      some (fileId.data ++ ':' :: (userIP.data ++ ':' :: jsIntToString t)) ∧
    splitCh ':' (fileId.data ++ ':' :: (userIP.data ++ ':' :: jsIntToString t)) =
      [fileId.data, userIP.data, jsIntToString t] ∧
    jsParseIntStr (jsIntToString t) = some t ∧
    verifyTempToken tok ip2 now = some ⟨some fileId, some t⟩ := by
  refine ⟨generate_decodes hgen, splitCh_joined hf hip,
    jsParseIntStr_jsIntToString t, ?_⟩
  rw [verify_generate hgen hf hip, if_neg (by omega)]

/-- C2 witness at a concrete triple. -/
theorem c2_witness :
    verifyTempToken "QToxLjIuMy40Ojk5" "other" 50 = some ⟨some "A", some 99⟩ :=
  (@c2_roundtrip "A" "1.2.3.4" "other" 99 50 "QToxLjIuMy40Ojk5"
    (by decide) (by decide) (by decide) (by decide)).2.2.2

/-- C3 counterexample: with the movie lookup and the upstream file
resolution both succeeding, flipping only the analytics-insert outcome from
success to throw flips the issuance response from success to the 500
failure, so issuance is not independent of analytics success. -/
theorem c3_counterexample :
    getFileUrlHandler "F" "movie-x" "1.2.3.4" ⟨some "BOT"⟩ (some (some ⟨1⟩))
        (some ⟨true, "path", 7⟩) false 0 = .failure 500 "Failed to get video URL" ∧
    getFileUrlHandler "F" "movie-x" "1.2.3.4" ⟨some "BOT"⟩ (some (some ⟨1⟩))
        (some ⟨true, "path", 7⟩) true 0 ≠ .failure 500 "Failed to get video URL" := by
  refine ⟨by decide, by decide⟩

/-- C3 (amended): the analytics insert is awaited inside the try block, so
when it throws the catch clause returns the 500 failure even though lookup
and upstream resolution succeeded; the issuance succeeds exactly when the
insert also succeeds. -/
theorem c3_amended {file_id movie_slug userIP bt : String} {m : MovieRow}
    {fd : GetFileResult} {now : Int} {tok : String}
    (hbt : bt ≠ "") (hok : fd.ok = true)
    (hgen : generateTempToken file_id userIP (now + 3600000) = some tok) :
    getFileUrlHandler file_id movie_slug userIP ⟨some bt⟩ (some (some m)) (some fd)
        false now = .failure 500 "Failed to get video URL" ∧
    getFileUrlHandler file_id movie_slug userIP ⟨some bt⟩ (some (some m)) (some fd)
        true now =
      .success ("/api/telegram/stream/" ++ tok)
        ("https://api.telegram.org/file/bot" ++ bt ++ "/" ++ fd.file_path)
        (now + 3600000) fd.file_size := by
  constructor <;> simp [getFileUrlHandler, hbt, hok, hgen]

/-- C3 witness at concrete inputs. -/
theorem c3_witness :
    getFileUrlHandler "F" "movie-x" "1.2.3.4" ⟨some "BOT"⟩ (some (some ⟨1⟩))
        (some ⟨true, "path", 7⟩) false 0 = .failure 500 "Failed to get video URL" ∧
    getFileUrlHandler "F" "movie-x" "1.2.3.4" ⟨some "BOT"⟩ (some (some ⟨1⟩))
        (some ⟨true, "path", 7⟩) true 0 =
      .success ("/api/telegram/stream/" ++ "RjoxLjIuMy40OjM2MDAwMDA")
        ("https://api.telegram.org/file/bot" ++ "BOT" ++ "/" ++ "path")
        ((0 : Int) + 3600000) 7 :=
  @c3_amended "F" "movie-x" "1.2.3.4" "BOT" ⟨1⟩ ⟨true, "path", 7⟩ 0
    "RjoxLjIuMy40OjM2MDAwMDA" (by decide) (by decide) (by decide)

/-- C4: a token minted from a valid triple with expiry now minus one fails
verification, and one with expiry now plus one passes, returning the decoded
fields; the check is now not greater than expiresAt. -/
theorem c4_expiry_boundary {fileId userIP ip2 : String} {now : Int}
    {tokPast tokFut : String}
    (hf : ':' ∉ fileId.data) (hip : ':' ∉ userIP.data)
    (hpast : generateTempToken fileId userIP (now - 1) = some tokPast)
    (hfut : generateTempToken fileId userIP (now + 1) = some tokFut) :
    verifyTempToken tokPast ip2 now = none ∧
    verifyTempToken tokFut ip2 now = some ⟨some fileId, some (now + 1)⟩ := by
  constructor
  · rw [verify_generate hpast hf hip, if_pos (by omega)]
  · rw [verify_generate hfut hf hip, if_neg (by omega)]

/-- C4 witness at now equal 1000 with expiries 999 and 1001. -/
theorem c4_witness :
    verifyTempToken "QTpCOjk5OQ" "C" 1000 = none ∧
    verifyTempToken "QTpCOjEwMDE" "C" 1000 = some ⟨some "A", some 1001⟩ :=
  @c4_expiry_boundary "A" "B" "C" 1000 "QTpCOjk5OQ" "QTpCOjEwMDE"
    (by decide) (by decide) (by decide) (by decide)

/-- C5 counterexample: a successful issuance for the IPv6-style caller
identity ::1 at time 0 mints a token whose embedded expiry field is
misaligned by the extra colons: verification decodes it with a NaN expiry,
not with the value 3600000, so the minted token does not decode to
expiresAtEpochMillis equal to T plus 3600000. -/
theorem c5_counterexample :
    getFileUrlHandler "F" "movie-x" "::1" ⟨some "BOT"⟩ (some (some ⟨1⟩))
        (some ⟨true, "path", 7⟩) true 0 =
      .success ("/api/telegram/stream/" ++ "Rjo6OjE6MzYwMDAwMA")
        ("https://api.telegram.org/file/bot" ++ "BOT" ++ "/" ++ "path") 3600000 7 ∧
    verifyTempToken "Rjo6OjE6MzYwMDAwMA" "::1" 0 = some ⟨some "F", none⟩ := by
  refine ⟨by decide, by decide⟩

/-- C5 (amended): every successful issuance at instant T returns
expires_at equal to T plus 3600000, and provided the file id and the caller
identity are colon-free latin1 strings, the minted token verifies, at any
instant not after that expiry and for any caller, to exactly that file id
and that expiry. -/
theorem c5_amended {file_id movie_slug userIP bt : String} {m : MovieRow}
    {fd : GetFileResult} {now : Int} {vu du : String} {e fs : Int}
    (hf : ':' ∉ file_id.data) (hip : ':' ∉ userIP.data)
    (hres : getFileUrlHandler file_id movie_slug userIP ⟨some bt⟩ (some (some m))
      (some fd) true now = .success vu du e fs) :
    e = now + 3600000 ∧
    ∃ tok : String, vu = "/api/telegram/stream/" ++ tok ∧
      generateTempToken file_id userIP (now + 3600000) = some tok ∧
      ∀ (ip2 : String) (now2 : Int), now2 ≤ now + 3600000 →
        verifyTempToken tok ip2 now2 = some ⟨some file_id, some (now + 3600000)⟩ := by
  obtain ⟨tok, hgen, hvu, hdu, he, hfs⟩ := getFileUrlHandler_success_elim hres
  refine ⟨he, tok, hvu, hgen, ?_⟩
  intro ip2 now2 h2
  rw [verify_generate hgen hf hip, if_neg (by omega)]

/-- C5 witness at a concrete issuance. -/
theorem c5_witness :
    verifyTempToken "QToxLjIuMy40OjM2MDAwMDA" "9.9.9.9" 100 =
      some ⟨some "A", some ((0 : Int) + 3600000)⟩ := by
  obtain ⟨he, tok, hvu, hgen, hver⟩ := @c5_amended "A" "movie-x" "1.2.3.4" "B" ⟨2⟩
    ⟨true, "q", 9⟩ 0 "/api/telegram/stream/QToxLjIuMy40OjM2MDAwMDA"
    "https://api.telegram.org/file/botB/q" 3600000 9
    (by decide) (by decide) (by decide)
  have htokeq : tok = "QToxLjIuMy40OjM2MDAwMDA" := by
    have h2 : generateTempToken "A" "1.2.3.4" ((0 : Int) + 3600000) =
        some "QToxLjIuMy40OjM2MDAwMDA" := by decide
    exact Option.some.inj (hgen.symm.trans h2)
  subst htokeq
  exact hver "9.9.9.9" 100 (by omega)

/-- C6: a minted token consists of the URL-safe images of standard base64
alphabet characters, so it never contains a plus, a slash, or an equals
sign. -/
theorem c6_urlsafe {fileId userIP : String} {t : Int} {tok : String}
    (hgen : generateTempToken fileId userIP t = some tok) :
    ∀ c ∈ tok.data, c ≠ '+' ∧ c ≠ '/' ∧ c ≠ '=' := by
  obtain ⟨bs, hbs, hshape⟩ := generateTempToken_shape hgen
  intro c hc
  rw [hshape] at hc
  obtain ⟨c0, hc0, rfl⟩ := List.mem_map.mp hc
  obtain ⟨s, hs, rfl⟩ := b64EncCore_mem hbs c0 hc0
  exact urlSafeChar_not_special hs

/-- C6 witness at a concrete token character. -/
theorem c6_witness :
    ('Q' : Char) ≠ '+' ∧ ('Q' : Char) ≠ '/' ∧ ('Q' : Char) ≠ '=' :=
  @c6_urlsafe "A" "1.2.3.4" 99 "QToxLjIuMy40Ojk5" (by decide) 'Q' (by decide)

/-- C7: when token verification fails, the stream handler returns the 401
response with the invalid-or-expired message and its trace of upstream
fetches is empty: no getFile call and no relay fetch happen. -/
theorem c7_unauthorized_no_fetch (token userIP : String) (env : TgEnv) (now : Int)
    (fileFetch : Option GetFileResult) (videoFetch : Option UpstreamVideo)
    (hv : verifyTempToken token userIP now = none) :
    streamHandler token userIP env now fileFetch videoFetch =
      (.json 401 "Invalid or expired token", []) := by
  unfold streamHandler
  rw [hv]

/-- C7 witness at a concrete malformed token. -/
theorem c7_witness :
    streamHandler "###" "someip" ⟨some "BOT"⟩ 0 none none =
      (.json 401 "Invalid or expired token", []) :=
  c7_unauthorized_no_fetch "###" "someip" ⟨some "BOT"⟩ 0 none none (by decide)

/-- C8 counterexample: on a successful relay whose upstream response has no
Content-Length header, the handler still emits a Content-Length header with
value 0, so the response does not carry Content-Length only when known. -/
theorem c8_counterexample :
    (streamHandler "RjppcDoxMA" "ip" ⟨some "BOT"⟩ 0 (some ⟨true, "path", 7⟩)
        (some ⟨true, 200, some "video/mp4", none⟩)).1 =
      .stream 200
        [("Content-Type", "video/mp4"), ("Content-Length", "0"),
         ("Accept-Ranges", "bytes"),
         ("Cache-Control", "no-cache, no-store, must-revalidate"),
         ("X-Content-Type-Options", "nosniff")] := by decide

/-- C8 (amended): on every successful relay the response carries exactly
five headers, in order: Content-Type from upstream with default video/mp4,
Content-Length from upstream with default 0, Accept-Ranges bytes, the
no-cache Cache-Control directives, and X-Content-Type-Options nosniff; the
upstream status is passed through. -/
theorem c8_headers_amended {token userIP bt : String} {now : Int}
    {fd : GetFileResult} {vr : UpstreamVideo} {td : TokenData}
    (hv : verifyTempToken token userIP now = some td)
    (hbt : bt ≠ "") (hok : fd.ok = true) (hvok : vr.ok = true) :
    (streamHandler token userIP ⟨some bt⟩ now (some fd) (some vr)).1 =
      .stream vr.status
        [("Content-Type", jsOrStr vr.contentType "video/mp4"),
         ("Content-Length", jsOrStr vr.contentLength "0"),
         ("Accept-Ranges", "bytes"),
         ("Cache-Control", "no-cache, no-store, must-revalidate"),
         ("X-Content-Type-Options", "nosniff")] := by
  unfold streamHandler
  rw [hv]
  simp [hbt, hok, hvok]

/-- C8 witness at a concrete successful relay. -/
theorem c8_witness :
    (streamHandler "RjppcDoxMA" "ip2" ⟨some "BOT"⟩ 0 (some ⟨true, "path", 7⟩)
        (some ⟨true, 206, some "video/webm", some "123"⟩)).1 =
      .stream 206
        [("Content-Type", jsOrStr (some "video/webm") "video/mp4"),
         ("Content-Length", jsOrStr (some "123") "0"),
         ("Accept-Ranges", "bytes"),
         ("Cache-Control", "no-cache, no-store, must-revalidate"),
         ("X-Content-Type-Options", "nosniff")] :=
  @c8_headers_amended "RjppcDoxMA" "ip2" "BOT" 0 ⟨true, "path", 7⟩
    ⟨true, 206, some "video/webm", some "123"⟩ ⟨some "F", some 10⟩
    (by decide) (by decide) (by decide) (by decide)

/-- C9: the IP-mismatch rejection is commented out in the source, so the
result of verifyTempToken does not depend on the userIP argument at all. -/
theorem c9_ip_independent (token ip1 ip2 : String) (now : Int) :
    verifyTempToken token ip1 now = verifyTempToken token ip2 now := rfl

/-- C10: every successful issuance response exposes the bot credential: its
direct_url field is exactly the file endpoint with the credential and the
upstream path spliced in, hence contains the credential verbatim. -/
theorem c10_direct_url_leak {file_id movie_slug userIP bt : String} {m : MovieRow}
    {fd : GetFileResult} {analyticsOk : Bool} {now : Int} {vu du : String} {e fs : Int}
    (hres : getFileUrlHandler file_id movie_slug userIP ⟨some bt⟩ (some (some m))
      (some fd) analyticsOk now = .success vu du e fs) :
    du = "https://api.telegram.org/file/bot" ++ bt ++ "/" ++ fd.file_path ∧
    ∃ pre post : String, du = pre ++ bt ++ post := by
  obtain ⟨tok, hgen, hvu, hdu, he, hfs⟩ := getFileUrlHandler_success_elim hres
  refine ⟨hdu, "https://api.telegram.org/file/bot", "/" ++ fd.file_path, ?_⟩
  rw [hdu]
  simp [String.append_assoc]

/-- C10 witness at a concrete issuance. -/
theorem c10_witness :
    ("https://api.telegram.org/file/botBOT/path" =
      "https://api.telegram.org/file/bot" ++ "BOT" ++ "/" ++ "path") ∧
    ∃ pre post : String,
      "https://api.telegram.org/file/botBOT/path" = pre ++ "BOT" ++ post :=
  @c10_direct_url_leak "F" "movie-x" "1.2.3.4" "BOT" ⟨1⟩ ⟨true, "path", 7⟩ true 0
    "/api/telegram/stream/RjoxLjIuMy40OjM2MDAwMDA"
    "https://api.telegram.org/file/botBOT/path" 3600000 7 (by decide)
